import Mathlib

/-!
# Resource identifiers in `server/service.go`

A shallow embedding of the ACH file service (`server/service.go`): the
operations of `service` over a `Repository`, and the identifier generator
`NextID`.

Conventions of the embedding.

* A Go result pair `(v, err)` is a Lean pair; `err` is `Option GoError`, with
  `none` for `nil`.  A pointer result that may be `nil` is an `Option`.
* The state that the operations act on is explicit (`World`): the state of the
  `Repository`, the batch headers reachable through `*ach.BatchHeader`
  pointers, the bytes that `rand.Reader` will deliver, and the list of
  `Repository` calls made so far.
* Pointer arguments (`fh`, `bh`) are non-nil.  `fh` is only read, so
  `CreateFile` takes the header it points to.  `bh` is read after a write
  through `batch.GetHeader()`, so batch headers live in a heap and `bh` is an
  address.
* A `*ach.File` that a `Repository` returns is the File it points to; what is
  written through that pointer reaches the repository by `writeFound`.  A
  method called on a nil `*ach.File` is a run-time panic: an operation that
  can panic returns an `Option`, with `none` for the panic.
* Bytes are natural numbers below 256; 32-bit words are natural numbers
  reduced modulo `2 ^ 32`.
-/

namespace Server

/-! ## Errors -/

/-- Values of the Go interface `error` that the service can see: the two
package variables of `service.go`, the results of `fmt.Errorf`, and any other
error value (returned by a `Repository` or by package `ach`), told apart by a
tag. -/
inductive GoError where
  | ErrNotFound
  | ErrAlreadyExists
  | Errorf (msg : String)
  | foreign (tag : Nat) (msg : String)
deriving DecidableEq, Repr

/-- The method `Error()` of an error value. -/
def GoError.Error : GoError → String
  | .ErrNotFound => "Not Found"
  | .ErrAlreadyExists => "Already Exists"
  | .Errorf msg => msg
  | .foreign _ msg => msg

/-! ## Records of package `ach` -/

/-- An address of a batch header (`*ach.BatchHeader`). -/
abbrev Ptr := Nat

/-- The record `ach.FileHeader`: the resource ID and the remaining fields. -/
structure FileHeader where
  ID : String
  fields : List String
deriving DecidableEq, Repr

/-- The record `ach.FileControl`. -/
structure FileControl where
  ID : String
  fields : List String
deriving DecidableEq, Repr

/-- The record `ach.BatchHeader`. -/
structure BatchHeader where
  ID : String
  StandardEntryClassCode : String
  fields : List String
deriving DecidableEq, Repr

/-- The record `ach.BatchControl`. -/
structure BatchControl where
  ID : String
  fields : List String
deriving DecidableEq, Repr

/-- A batch behind the interface `ach.Batcher`: its ID, the pointer returned by
`GetHeader()`, and the control record behind `GetControl()`. -/
structure Batch where
  ID : String
  Header : Ptr
  Control : BatchControl
deriving DecidableEq, Repr

/-- The record `ach.File`. -/
structure File where
  ID : String
  Header : FileHeader
  Control : FileControl
  Batches : List Batch
deriving DecidableEq, Repr

/-- The batch headers in memory, by address. -/
abbrev Heap := Ptr → BatchHeader

/-- The parts of package `ach` that `service.go` calls and whose results it
does not look into: the values of the constructors, the verdict of batch
construction, `(*File).Create` (its error and the File as it leaves it),
`(*File).Validate`, and the rendering done by `(*Writer).Write`: from the
state `ω` of the `Writer` and a File, the error it returns and the text it
writes, and the next state of the `Writer`. -/
structure FormatEngine (ω : Type) where
  NewFile : File
  NewBatchControl : BatchControl
  checkHeader : BatchHeader → Option GoError
  Create : File → Option GoError × File
  Validate : File → Option GoError
  NewWriter : ω
  Write : ω → File → (Option GoError × List Nat) × ω

/-- Modelled from the spec: `(*ach.File).SetHeader`, of package `ach`, is not
in `service.go`.  "Builds an empty File aggregate, attaches `header` as its
Header." -/
def File.SetHeader (f : File) (h : FileHeader) : File :=
  { f with Header := h }

/-- Modelled from the spec: `ach.NewBatch`, of package `ach`, is not in
`service.go`.  "Constructs a new Batch via FormatEngine from `header` (fails
with a `ConstructionError` if the header is structurally invalid)."  The batch
is built on the header it is given: `bh` is a `*ach.BatchHeader`, and
`GetHeader()` hands back that pointer, which is how the coordinator
"completes identity fields" of the header the caller supplied. -/
def NewBatch {ω : Type} (E : FormatEngine ω) (bh : Ptr) (heap : Heap) : Except GoError Batch :=
  match E.checkHeader (heap bh) with
  | some err => .error err
  | none => .ok { ID := "", Header := bh, Control := E.NewBatchControl }

/-- Modelled from the spec: `Batcher.SetID`, of package `ach`, is not in
`service.go`.  It assigns `Batch.ID`. -/
def Batch.SetID (b : Batch) (id : String) : Batch :=
  { b with ID := id }

/-- Modelled from the spec: `Batcher.GetHeader`, of package `ach`, is not in
`service.go`.  It returns the pointer to the header record of the batch. -/
def Batch.GetHeader (b : Batch) : Ptr :=
  b.Header

/-! ## Repository and world -/

/-- One call of a `Repository` method, with its arguments.  For `StoreBatch`
the header that the batch points to at the time of the call is recorded as
well. -/
inductive Call where
  | StoreFile (f : File)
  | FindFile (id : String)
  | FindAllFiles
  | DeleteFile (id : String)
  | StoreBatch (fileID : String) (b : Batch) (hdr : BatchHeader)
  | FindBatch (fileID : String) (batchID : String)
  | FindAllBatches (fileID : String)
  | DeleteBatch (fileID : String) (batchID : String)
deriving DecidableEq, Repr

/-- The interface `Repository` consumed by the service, over a state `σ`.
Every method may change the state.  `StoreBatch` can read batch headers
through the pointer held by the batch.

`FindFile` returns a `*ach.File`.  The last field is not a method: `writeFound
id f st` is the state of the repository once the File that `FindFile(id)`
pointed to in `st` has been overwritten with `f` through that pointer.  A
repository that hands out the File it holds sees the change; one that hands
out a copy leaves `st` as it is. -/
structure Repository (σ : Type) where
  StoreFile : File → σ → Option GoError × σ
  FindFile : String → σ → (Option File × Option GoError) × σ
  FindAllFiles : σ → List File × σ
  DeleteFile : String → σ → Option GoError × σ
  StoreBatch : String → Batch → Heap → σ → Option GoError × σ
  FindBatch : String → String → σ → (Option Batch × Option GoError) × σ
  FindAllBatches : String → σ → List Batch × σ
  DeleteBatch : String → String → σ → Option GoError × σ
  writeFound : String → File → σ → σ

/-- Everything an operation of the service can read or change. -/
structure World (σ : Type) where
  store : σ
  heap : Heap
  entropy : Nat → Nat
  cursor : Nat
  calls : List Call

/-- The struct `service`: a `Repository`. -/
structure service (σ : Type) where
  store : Repository σ

/-- The constructor `NewService`. -/
def NewService {σ : Type} (r : Repository σ) : service σ :=
  { store := r }

section Calls
variable {σ : Type}

/-- The call `s.store.StoreFile(f)` in a world. -/
def service.doStoreFile (s : service σ) (f : File) (w : World σ) : Option GoError × World σ :=
  let r := s.store.StoreFile f w.store
  (r.1, { w with store := r.2, calls := w.calls ++ [Call.StoreFile f] })

/-- The call `s.store.FindFile(id)` in a world. -/
def service.doFindFile (s : service σ) (id : String) (w : World σ) :
    (Option File × Option GoError) × World σ :=
  let r := s.store.FindFile id w.store
  (r.1, { w with store := r.2, calls := w.calls ++ [Call.FindFile id] })

/-- The call `s.store.FindAllFiles()` in a world. -/
def service.doFindAllFiles (s : service σ) (w : World σ) : List File × World σ :=
  let r := s.store.FindAllFiles w.store
  (r.1, { w with store := r.2, calls := w.calls ++ [Call.FindAllFiles] })

/-- The call `s.store.DeleteFile(id)` in a world. -/
def service.doDeleteFile (s : service σ) (id : String) (w : World σ) : Option GoError × World σ :=
  let r := s.store.DeleteFile id w.store
  (r.1, { w with store := r.2, calls := w.calls ++ [Call.DeleteFile id] })

/-- The call `s.store.StoreBatch(fileID, batch)` in a world. -/
def service.doStoreBatch (s : service σ) (fileID : String) (b : Batch) (w : World σ) :
    Option GoError × World σ :=
  let r := s.store.StoreBatch fileID b w.heap w.store
  (r.1, { w with store := r.2, calls := w.calls ++ [Call.StoreBatch fileID b (w.heap b.Header)] })

/-- The call `s.store.FindBatch(fileID, batchID)` in a world. -/
def service.doFindBatch (s : service σ) (fileID batchID : String) (w : World σ) :
    (Option Batch × Option GoError) × World σ :=
  let r := s.store.FindBatch fileID batchID w.store
  (r.1, { w with store := r.2, calls := w.calls ++ [Call.FindBatch fileID batchID] })

/-- The call `s.store.FindAllBatches(fileID)` in a world. -/
def service.doFindAllBatches (s : service σ) (fileID : String) (w : World σ) :
    List Batch × World σ :=
  let r := s.store.FindAllBatches fileID w.store
  (r.1, { w with store := r.2, calls := w.calls ++ [Call.FindAllBatches fileID] })

/-- The call `s.store.DeleteBatch(fileID, batchID)` in a world. -/
def service.doDeleteBatch (s : service σ) (fileID batchID : String) (w : World σ) :
    Option GoError × World σ :=
  let r := s.store.DeleteBatch fileID batchID w.store
  (r.1, { w with store := r.2, calls := w.calls ++ [Call.DeleteBatch fileID batchID] })

end Calls

/-! ## SHA-1, hexadecimal encoding and `NextID` -/

/-- Rotation of a 32-bit word to the left by `n` bits. -/
def rotl32 (x n : Nat) : Nat :=
  ((x <<< n) ||| (x >>> (32 - n))) % 2 ^ 32

/-- The four bytes of a 32-bit word, most significant first. -/
def be32 (x : Nat) : List Nat :=
  [(x >>> 24) % 256, (x >>> 16) % 256, (x >>> 8) % 256, x % 256]

/-- The eight bytes of a 64-bit word, most significant first. -/
def be64 (n : Nat) : List Nat :=
  be32 ((n >>> 32) % 2 ^ 32) ++ be32 (n % 2 ^ 32)

/-- Padding of a message: the byte 0x80, zero bytes up to 56 modulo 64, then
the length of the message in bits on eight bytes. -/
def sha1Pad (msg : List Nat) : List Nat :=
  let l := msg.length
  let zeros := if l % 64 < 56 then 55 - l % 64 else 119 - l % 64
  msg ++ [0x80] ++ List.replicate zeros 0 ++ be64 ((8 * l) % 2 ^ 64)

/-- The 32-bit word at index `i` of a block of bytes, most significant byte
first. -/
def wordAt (block : List Nat) (i : Nat) : Nat :=
  (block.getD (4 * i) 0 % 256) * 2 ^ 24 + (block.getD (4 * i + 1) 0 % 256) * 2 ^ 16
    + (block.getD (4 * i + 2) 0 % 256) * 2 ^ 8 + block.getD (4 * i + 3) 0 % 256

/-- The message schedule: the sixteen words of a block extended to eighty. -/
def sha1Schedule (block : List Nat) : List Nat :=
  (List.range 64).foldl
    (fun ws j =>
      let i := j + 16
      ws ++ [rotl32 (ws.getD (i - 3) 0 ^^^ ws.getD (i - 8) 0
                      ^^^ ws.getD (i - 14) 0 ^^^ ws.getD (i - 16) 0) 1])
    ((List.range 16).map (wordAt block))

/-- The chaining value of SHA-1: five 32-bit words. -/
structure Sha1State where
  h0 : Nat
  h1 : Nat
  h2 : Nat
  h3 : Nat
  h4 : Nat
deriving DecidableEq, Repr

/-- The initial chaining value. -/
def sha1Init : Sha1State :=
  ⟨0x67452301, 0xEFCDAB89, 0x98BADCFE, 0x10325476, 0xC3D2E1F0⟩

/-- Complement of a 32-bit word. -/
def not32 (x : Nat) : Nat :=
  (2 ^ 32 - 1) ^^^ (x % 2 ^ 32)

/-- The function and the constant of round `t`. -/
def sha1F (t b c d : Nat) : Nat × Nat :=
  if t < 20 then ((b &&& c) ||| (not32 b &&& d), 0x5A827999)
  else if t < 40 then (b ^^^ c ^^^ d, 0x6ED9EBA1)
  else if t < 60 then ((b &&& c) ||| (b &&& d) ||| (c &&& d), 0x8F1BBCDC)
  else (b ^^^ c ^^^ d, 0xCA62C1D6)

/-- One round of the compression function. -/
def sha1Round (ws : List Nat) (s : Sha1State) (t : Nat) : Sha1State :=
  let fk := sha1F t s.h1 s.h2 s.h3
  let temp := (rotl32 s.h0 5 + fk.1 + s.h4 + fk.2 + ws.getD t 0) % 2 ^ 32
  ⟨temp, s.h0, rotl32 s.h1 30, s.h2, s.h3⟩

/-- Compression of one block of 64 bytes into the chaining value. -/
def sha1Block (s : Sha1State) (block : List Nat) : Sha1State :=
  let ws := sha1Schedule block
  let r := (List.range 80).foldl (sha1Round ws) s
  ⟨(s.h0 + r.h0) % 2 ^ 32, (s.h1 + r.h1) % 2 ^ 32, (s.h2 + r.h2) % 2 ^ 32,
   (s.h3 + r.h3) % 2 ^ 32, (s.h4 + r.h4) % 2 ^ 32⟩

/-- The blocks of 64 bytes of a padded message. -/
def sha1Blocks (p : List Nat) : List (List Nat) :=
  (List.range (p.length / 64)).map (fun i => (p.drop (64 * i)).take 64)

/-- The digest computed by `h := sha1.New(); h.Write(bs); h.Sum(nil)`. -/
def sha1Sum (msg : List Nat) : List Nat :=
  let s := (sha1Blocks (sha1Pad msg)).foldl sha1Block sha1Init
  be32 s.h0 ++ be32 s.h1 ++ be32 s.h2 ++ be32 s.h3 ++ be32 s.h4

/-- The digits used by `hex.EncodeToString`. -/
def hextable : List Char :=
  ['0', '1', '2', '3', '4', '5', '6', '7', '8', '9', 'a', 'b', 'c', 'd', 'e', 'f']

/-- The two digits that `hex.EncodeToString` writes for the byte `v`:
`hextable[v>>4]` and `hextable[v&0x0f]`. -/
def hexByte (v : Nat) : List Char :=
  [hextable.getD (v >>> 4) '?', hextable.getD (v &&& 0x0f) '?']

/-- The function `hex.EncodeToString`, as a list of characters. -/
def hexEncodeToString : List Nat → List Char
  | [] => []
  | v :: rest => hexByte v ++ hexEncodeToString rest

/-- A digit of lowercase hexadecimal. -/
def isLowerHex (c : Char) : Prop :=
  ('0' ≤ c ∧ c ≤ '9') ∨ ('a' ≤ c ∧ c ≤ 'f')

/-- Lines 171 to 173 of `NextID`: the token made from the block `bs` that
`rand.Reader.Read` left in the buffer. -/
def NextID.ofBlock (bs : List Nat) : String :=
  String.mk ((hexEncodeToString (sha1Sum bs)).take 16)

/-- The call `rand.Reader.Read(bs)` on a buffer of `n` bytes: the next `n`
bytes of the random source. -/
def World.readRand {σ : Type} (w : World σ) (n : Nat) : List Nat × World σ :=
  ((List.range n).map (fun i => w.entropy (w.cursor + i) % 256),
   { w with cursor := w.cursor + n })

/-- The function `NextID`. -/
def NextID {σ : Type} (w : World σ) : String × World σ :=
  let r := w.readRand 20
  (NextID.ofBlock r.1, r.2)

/-! ## The service -/

section Service
variable {σ ω : Type}

/-- The method `service.CreateFile`. -/
def CreateFile (E : FormatEngine ω) (s : service σ) (fh : FileHeader) (w : World σ) :
    (String × Option GoError) × World σ :=
  let f := E.NewFile.SetHeader fh
  if fh.ID = "" then
    let r := NextID w
    let id := r.1
    let f := { f with ID := id }
    let f := { f with Header := { f.Header with ID := id } }
    let f := { f with Control := { f.Control with ID := id } }
    let st := s.doStoreFile f r.2
    match st.1 with
    | some err => (("", some err), st.2)
    | none => ((f.ID, none), st.2)
  else
    let f := { f with ID := fh.ID }
    let f := { f with Control := { f.Control with ID := fh.ID } }
    let st := s.doStoreFile f w
    match st.1 with
    | some err => (("", some err), st.2)
    | none => ((f.ID, none), st.2)

/-- The method `service.GetFile`. -/
def GetFile (s : service σ) (id : String) (w : World σ) :
    (Option File × Option GoError) × World σ :=
  let r := s.doFindFile id w
  match r.1.2 with
  | some _ => ((none, some GoError.ErrNotFound), r.2)
  | none => ((r.1.1, none), r.2)

/-- The method `service.GetFiles`. -/
def GetFiles (s : service σ) (w : World σ) : List File × World σ :=
  s.doFindAllFiles w

/-- The method `service.DeleteFile`. -/
def DeleteFile (s : service σ) (id : String) (w : World σ) : Option GoError × World σ :=
  s.doDeleteFile id w

/-- The method `(*bytes.Buffer).Write`: `p` is appended to the contents, the
count is the length of `p`, and the error is always nil. -/
def bytesBufferWrite (contents p : List Nat) : (Nat × Option GoError) × List Nat :=
  ((p.length, none), contents ++ p)

/-- The error `io.ErrShortWrite`. -/
def ErrShortWrite : GoError :=
  GoError.foreign 0 "short write"

/-- A `bufio.Writer` over the `bytes.Buffer` declared in `GetFileContents`:
its sticky error, the bytes it holds that are not yet written out, and the
contents of the `bytes.Buffer`.  (The size of the holding area is not
modelled: filling it writes bytes out earlier, to the same contents in the
end.) -/
structure BufWriter where
  err : Option GoError
  pending : List Nat
  buf : List Nat
deriving DecidableEq, Repr

/-- The method `(*bufio.Writer).WriteString`. -/
def BufWriter.WriteString (b : BufWriter) (p : List Nat) : BufWriter :=
  match b.err with
  | some _ => b
  | none => { b with pending := b.pending ++ p }

/-- The method `(*bufio.Writer).Flush`: the sticky error if there is one;
otherwise the pending bytes go to the `bytes.Buffer`, and a short or failed
write becomes the sticky error. -/
def BufWriter.Flush (b : BufWriter) : Option GoError × BufWriter :=
  match b.err with
  | some e => (some e, b)
  | none =>
    if b.pending.length = 0 then (none, b)
    else
      let r := bytesBufferWrite b.buf b.pending
      let n := r.1.1
      let err := if n < b.pending.length ∧ r.1.2 = none then some ErrShortWrite else r.1.2
      match err with
      | some e => (some e, { err := some e, pending := b.pending.drop n, buf := r.2 })
      | none => (none, { err := none, pending := [], buf := r.2 })

/-- Modelled from the spec: `ach.Writer`, of package `ach`, is not in
`service.go`.  "Render to an in-memory buffer via FormatEngine, flush, return
the buffer as a readable stream": the state of the `Writer` itself and the
`bufio.Writer` through which its text reaches the buffer. -/
structure Writer (ω : Type) where
  own : ω
  w : BufWriter

/-- Modelled from the spec: `ach.NewWriter(&buf)`, over the empty
`bytes.Buffer` that `GetFileContents` declares. -/
def NewWriter (E : FormatEngine ω) : Writer ω :=
  { own := E.NewWriter, w := { err := none, pending := [], buf := [] } }

/-- Modelled from the spec: `(*ach.Writer).Write`.  The engine renders the
File; the text goes to the `bufio.Writer`; the error is the engine's. -/
def Writer.Write (E : FormatEngine ω) (wr : Writer ω) (f : File) : Option GoError × Writer ω :=
  let r := E.Write wr.own f
  (r.1.1, { own := r.2, w := wr.w.WriteString r.1.2 })

/-- Modelled from the spec: `(*ach.Writer).Flush`: the flush of the
`bufio.Writer`. -/
def Writer.Flush (wr : Writer ω) : Option GoError × Writer ω :=
  let r := wr.w.Flush
  (r.1, { wr with w := r.2 })

/-- The method `service.GetFileContents`.  The result is `none` when the call
panics: `GetFile` returned a nil File with a nil error, and `f.Create()`
dereferences it.  `f` points to the File of the repository, so what
`f.Create()` writes into it reaches the repository.  The reader that is
returned is the buffer, given by its bytes. -/
def GetFileContents (E : FormatEngine ω) (s : service σ) (id : String) (w : World σ) :
    Option ((Option (List Nat) × Option GoError) × World σ) :=
  let r := GetFile s id w
  match r.1.2 with
  | some err =>
    some ((none, some (GoError.Errorf ("problem reading file " ++ id ++ ": " ++ err.Error))),
          r.2)
  | none =>
    match r.1.1 with
    | none => none
    | some f =>
      let c := E.Create f
      let w1 : World σ := { r.2 with store := s.store.writeFound id c.2 r.2.store }
      match c.1 with
      | some err =>
        some ((none, some (GoError.Errorf
                ("problem creating file " ++ id ++ ": " ++ err.Error))), w1)
      | none =>
        let wr := Writer.Write E (NewWriter E) c.2
        match wr.1 with
        | some err =>
          some ((none, some (GoError.Errorf
                  ("problem writing plaintext file " ++ id ++ ": " ++ err.Error))), w1)
        | none =>
          let fl := wr.2.Flush
          match fl.1 with
          | some err => some ((none, some err), w1)
          | none => some ((some fl.2.w.buf, none), w1)

/-- The method `service.ValidateFile`.  The result is `none` when the call
panics on a nil File. -/
def ValidateFile (E : FormatEngine ω) (s : service σ) (id : String) (w : World σ) :
    Option (Option GoError × World σ) :=
  let r := GetFile s id w
  match r.1.2 with
  | some err =>
    some (some (GoError.Errorf ("problem reading file " ++ id ++ ": " ++ err.Error)), r.2)
  | none =>
    match r.1.1 with
    | none => none
    | some f => some (E.Validate f, r.2)

/-- The method `service.CreateBatch`.  `bh.ID` is read in the heap each time
the source reads it. -/
def CreateBatch (E : FormatEngine ω) (s : service σ) (fileID : String) (bh : Ptr)
    (w : World σ) : (String × Option GoError) × World σ :=
  match NewBatch E bh w.heap with
  | .error err => (((w.heap bh).ID, some err), w)
  | .ok batch =>
    if (w.heap bh).ID = "" then
      let r := NextID w
      let id := r.1
      let batch := batch.SetID id
      let w1 : World σ :=
        { r.2 with heap := Function.update r.2.heap batch.GetHeader
                             { r.2.heap batch.GetHeader with ID := id } }
      let batch := { batch with Control := { batch.Control with ID := id } }
      let st := s.doStoreBatch fileID batch w1
      match st.1 with
      | some err => (("", some err), st.2)
      | none => (((st.2.heap bh).ID, none), st.2)
    else
      let batch := batch.SetID (w.heap bh).ID
      let batch := { batch with Control := { batch.Control with ID := (w.heap bh).ID } }
      let st := s.doStoreBatch fileID batch w
      match st.1 with
      | some err => (("", some err), st.2)
      | none => (((st.2.heap bh).ID, none), st.2)

/-- The method `service.GetBatch`. -/
def GetBatch (s : service σ) (fileID batchID : String) (w : World σ) :
    (Option Batch × Option GoError) × World σ :=
  let r := s.doFindBatch fileID batchID w
  match r.1.2 with
  | some _ => ((none, some GoError.ErrNotFound), r.2)
  | none => ((r.1.1, none), r.2)

/-- The method `service.GetBatches`. -/
def GetBatches (s : service σ) (fileID : String) (w : World σ) : List Batch × World σ :=
  s.doFindAllBatches fileID w

/-- The method `service.DeleteBatch`. -/
def DeleteBatch (s : service σ) (fileID batchID : String) (w : World σ) :
    Option GoError × World σ :=
  s.doDeleteBatch fileID batchID w

end Service

/-! ## A repository in memory, and sample inputs

Used to run the operations on concrete inputs. -/

/-- Modelled from the spec: a `Repository` in memory, which is not in
`service.go`.  Files are kept in a list.  "`StoreFile(File)`: upsert by
File.ID"; "`FindFile(id)`: fails with a not-found condition if absent";
"`DeleteFile(id)`: fails if absent"; "`StoreBatch(fileID, Batch)`: upsert by
(fileID, Batch.ID); fails with not-found if `fileID` is unknown";
"`FindBatch(fileID, batchID)`: fails with not-found if absent";
"`DeleteBatch(fileID, batchID)`: fails if absent".  `FindFile` hands out the
File that the list holds. -/
def memRepository : Repository (List File) where
  StoreFile f st := (none, f :: st.filter (fun g => g.ID != f.ID))
  FindFile id st :=
    match st.find? (fun g => g.ID == id) with
    | some f => ((some f, none), st)
    | none => ((none, some GoError.ErrNotFound), st)
  FindAllFiles st := (st, st)
  DeleteFile id st :=
    if st.any (fun g => g.ID == id) then (none, st.filter (fun g => g.ID != id))
    else (some GoError.ErrNotFound, st)
  StoreBatch fileID b _ st :=
    if st.any (fun g => g.ID == fileID) then
      (none, st.map (fun g =>
        if g.ID == fileID then
          { g with Batches := g.Batches.filter (fun c => c.ID != b.ID) ++ [b] }
        else g))
    else (some GoError.ErrNotFound, st)
  FindBatch fileID batchID st :=
    match st.find? (fun g => g.ID == fileID) with
    | some f =>
      match f.Batches.find? (fun c => c.ID == batchID) with
      | some b => ((some b, none), st)
      | none => ((none, some GoError.ErrNotFound), st)
    | none => ((none, some GoError.ErrNotFound), st)
  FindAllBatches fileID st :=
    match st.find? (fun g => g.ID == fileID) with
    | some f => (f.Batches, st)
    | none => ([], st)
  DeleteBatch fileID batchID st :=
    match st.find? (fun g => g.ID == fileID) with
    | some f =>
      if f.Batches.any (fun c => c.ID == batchID) then
        (none, st.map (fun g =>
          if g.ID == fileID then
            { g with Batches := g.Batches.filter (fun c => c.ID != batchID) }
          else g))
      else (some GoError.ErrNotFound, st)
    | none => (some GoError.ErrNotFound, st)
  writeFound id f st := st.map (fun g => if g.ID == id then f else g)

/-- A file identifier is known to the repository in memory. -/
def memKnown (st : List File) (fileID : String) : Prop :=
  ∃ f ∈ st, f.ID = fileID

/-- A repository whose lookups fail with an error of the backend, and whose
deletions fail with another one. -/
def brokenRepository : Repository (List File) :=
  { memRepository with
    FindFile := fun _ st => ((none, some (GoError.foreign 9 "connection refused")), st)
    FindBatch := fun _ _ st => ((none, some (GoError.foreign 9 "connection refused")), st)
    DeleteFile := fun _ st => (some (GoError.foreign 8 "read-only store"), st)
    DeleteBatch := fun _ _ st => (some (GoError.foreign 8 "read-only store"), st) }

/-- A repository in memory that answers every `FindFile` with a nil File and
a nil error. -/
def nilRepository : Repository (List File) :=
  { memRepository with FindFile := fun _ st => ((none, none), st) }

/-- A sample engine.  Batch construction accepts the class code PPD only.
`Create` needs a file with at least one batch, and marks the control record
of the file as built.  The `Writer` counts the files it has rendered; it
renders a file as the character codes of its ID, or fails when asked to (`writeErr`). -/
def sampleEngine (writeErr : Option GoError) : FormatEngine Nat where
  NewFile := { ID := "", Header := ⟨"", []⟩, Control := ⟨"", []⟩, Batches := [] }
  NewBatchControl := ⟨"", []⟩
  checkHeader h :=
    if h.StandardEntryClassCode = "PPD" then none
    else some (GoError.foreign 1 "StandardEntryClassCode is not supported")
  Create f :=
    if f.Batches.isEmpty then (some (GoError.foreign 2 "must have batches to be built"), f)
    else (none, { f with Control := { f.Control with fields := ["built"] } })
  Validate _ := none
  NewWriter := 0
  Write n f :=
    match writeErr with
    | some e => ((some e, []), n)
    | none => ((none, f.ID.data.map (fun c => c.toNat)), n + 1)

/-- A sample service over the repository in memory. -/
def sampleService : service (List File) :=
  NewService memRepository

/-- A sample world: the given files in the repository, at address 0 a batch
header with an empty ID, at address 1 one with the ID "custom", both of class
PPD, and elsewhere a header of an unsupported class. -/
def sampleWorld (files : List File) : World (List File) where
  store := files
  heap := fun p =>
    if p = 0 then ⟨"", "PPD", []⟩
    else if p = 1 then ⟨"custom", "PPD", []⟩
    else ⟨"b9", "XYZ", []⟩
  entropy := fun i => 7 * i + 3
  cursor := 0
  calls := []

/-- A sample file with one batch. -/
def sampleFile : File :=
  { ID := "f1", Header := ⟨"f1", []⟩, Control := ⟨"f1", []⟩,
    Batches := [{ ID := "b1", Header := 1, Control := ⟨"b1", []⟩ }] }

/-- A sample file without batches. -/
def emptyFile : File :=
  { ID := "f0", Header := ⟨"f0", []⟩, Control := ⟨"f0", []⟩, Batches := [] }

/-! ## Lemmas on the digest and its encoding -/

theorem be32_length (x : Nat) : (be32 x).length = 4 := rfl

theorem be32_lt (x : Nat) : ∀ b ∈ be32 x, b < 256 := by
  intro b hb
  simp only [be32, List.mem_cons, List.mem_singleton, List.not_mem_nil, or_false] at hb
  rcases hb with rfl | rfl | rfl | rfl <;> exact Nat.mod_lt _ (by norm_num)

theorem sha1Sum_length (msg : List Nat) : (sha1Sum msg).length = 20 := by
  simp [sha1Sum, be32_length]

theorem sha1Sum_lt (msg : List Nat) : ∀ b ∈ sha1Sum msg, b < 256 := by
  intro b hb
  simp only [sha1Sum, List.mem_append] at hb
  rcases hb with (((hb | hb) | hb) | hb) | hb <;> exact be32_lt _ b hb

theorem hexEncodeToString_length (l : List Nat) :
    (hexEncodeToString l).length = 2 * l.length := by
  induction l with
  | nil => rfl
  | cons v rest ih => simp [hexEncodeToString, hexByte, ih]; omega

theorem hexEncodeToString_take (l : List Nat) (n : Nat) :
    (hexEncodeToString l).take (2 * n) = hexEncodeToString (l.take n) := by
  induction l generalizing n with
  | nil => simp [hexEncodeToString]
  | cons v rest ih =>
    cases n with
    | zero => simp [hexEncodeToString]
    | succ k =>
      have h2 : 2 * (k + 1) = (2 * k) + 2 := by ring
      simp [hexEncodeToString, hexByte, h2, ih]

theorem hextable_getD_mem : ∀ i, i < 16 → hextable.getD i '?' ∈ hextable := by
  decide

theorem hextable_lowerHex : ∀ c ∈ hextable, isLowerHex c := by
  unfold isLowerHex hextable
  decide

theorem hexByte_mem (v : Nat) (hv : v < 256) : ∀ c ∈ hexByte v, c ∈ hextable := by
  intro c hc
  simp only [hexByte, List.mem_cons, List.mem_singleton, List.not_mem_nil, or_false] at hc
  rcases hc with rfl | rfl
  · apply hextable_getD_mem
    rw [Nat.shiftRight_eq_div_pow]
    omega
  · apply hextable_getD_mem
    exact Nat.lt_of_le_of_lt Nat.and_le_right (by norm_num)

theorem hexEncodeToString_mem (l : List Nat) (hl : ∀ b ∈ l, b < 256) :
    ∀ c ∈ hexEncodeToString l, c ∈ hextable := by
  induction l with
  | nil => intro c hc; simp [hexEncodeToString] at hc
  | cons v rest ih =>
    intro c hc
    simp only [hexEncodeToString, List.mem_append] at hc
    rcases hc with hc | hc
    · exact hexByte_mem v (hl v (List.mem_cons_self _ _)) c hc
    · exact ih (fun b hb => hl b (List.mem_cons_of_mem _ hb)) c hc

theorem ofBlock_length (bs : List Nat) : (NextID.ofBlock bs).length = 16 := by
  simp [NextID.ofBlock, String.length, hexEncodeToString_length, sha1Sum_length]

theorem ofBlock_ne_empty (bs : List Nat) : NextID.ofBlock bs ≠ "" := by
  intro h
  have h16 := ofBlock_length bs
  rw [h] at h16
  simp at h16

theorem readRand_length {σ : Type} (w : World σ) (n : Nat) : (w.readRand n).1.length = n := by
  simp [World.readRand]

theorem readRand_lt {σ : Type} (w : World σ) (n : Nat) : ∀ b ∈ (w.readRand n).1, b < 256 := by
  intro b hb
  simp only [World.readRand, List.mem_map] at hb
  obtain ⟨i, _, rfl⟩ := hb
  exact Nat.mod_lt _ (by norm_num)

theorem NextID_ne_empty {σ : Type} (w : World σ) : (NextID w).1 ≠ "" :=
  ofBlock_ne_empty _

/-! ## Creation of files -/

/-- C1: for a header with an empty ID, `CreateFile` hands to `StoreFile` one
File whose ID, Header.ID and Control.ID all equal the identifier `x` that
`NextID` generates, and when that `StoreFile` succeeds it returns `x` with no
error. -/
theorem CreateFile_generated_id {σ ω : Type} (E : FormatEngine ω) (s : service σ)
    (fh : FileHeader) (w : World σ) (h : fh.ID = "") :
    ∃ f : File,
      (CreateFile E s fh w).2.calls = w.calls ++ [Call.StoreFile f] ∧
      f.ID = (NextID w).1 ∧ f.Header.ID = (NextID w).1 ∧ f.Control.ID = (NextID w).1 ∧
      ((s.store.StoreFile f w.store).1 = none →
        (CreateFile E s fh w).1 = ((NextID w).1, none)) := by
  refine ⟨{ ID := (NextID w).1,
            Header := { fh with ID := (NextID w).1 },
            Control := { E.NewFile.Control with ID := (NextID w).1 },
            Batches := E.NewFile.Batches }, ?_, rfl, rfl, rfl, ?_⟩
  · simp only [CreateFile, h, if_true]
    split <;> rfl
  · intro hs
    simp only [CreateFile, h, if_true]
    split
    · rename_i err herr
      simp only [service.doStoreFile, File.SetHeader, NextID, World.readRand] at herr hs
      rw [hs] at herr
      cases herr
    · rfl

/-- Witness of C1 on the sample service, for the empty header. -/
theorem CreateFile_generated_id_witness :
    ∃ f : File,
      (CreateFile (sampleEngine none) sampleService ⟨"", []⟩ (sampleWorld [])).2.calls
        = (sampleWorld []).calls ++ [Call.StoreFile f] ∧
      f.ID = (NextID (sampleWorld [])).1 ∧ f.Header.ID = (NextID (sampleWorld [])).1 ∧
      f.Control.ID = (NextID (sampleWorld [])).1 ∧
      ((sampleService.store.StoreFile f (sampleWorld []).store).1 = none →
        (CreateFile (sampleEngine none) sampleService ⟨"", []⟩ (sampleWorld [])).1
          = ((NextID (sampleWorld [])).1, none)) :=
  CreateFile_generated_id (sampleEngine none) sampleService ⟨"", []⟩ (sampleWorld []) rfl

/-- C2: for a header with a non-empty ID `c`, `CreateFile` hands to `StoreFile`
one File whose ID and Control.ID equal `c` and whose Header is the header the
caller supplied (so Header.ID is `c` too), and when that `StoreFile` succeeds
it returns `c` with no error. -/
theorem CreateFile_supplied_id {σ ω : Type} (E : FormatEngine ω) (s : service σ)
    (fh : FileHeader) (w : World σ) (h : fh.ID ≠ "") :
    ∃ f : File,
      (CreateFile E s fh w).2.calls = w.calls ++ [Call.StoreFile f] ∧
      f.ID = fh.ID ∧ f.Control.ID = fh.ID ∧ f.Header = fh ∧ f.Header.ID = fh.ID ∧
      ((s.store.StoreFile f w.store).1 = none →
        (CreateFile E s fh w).1 = (fh.ID, none)) := by
  refine ⟨{ ID := fh.ID,
            Header := fh,
            Control := { E.NewFile.Control with ID := fh.ID },
            Batches := E.NewFile.Batches }, ?_, rfl, rfl, rfl, rfl, ?_⟩
  · simp only [CreateFile, h, if_false]
    split <;> rfl
  · intro hs
    simp only [CreateFile, h, if_false]
    split
    · rename_i err herr
      simp only [service.doStoreFile, File.SetHeader] at herr hs
      rw [hs] at herr
      cases herr
    · rfl

/-- Witness of C2 on the sample service, for a header with the ID "custom". -/
theorem CreateFile_supplied_id_witness :
    ∃ f : File,
      (CreateFile (sampleEngine none) sampleService ⟨"custom", ["x"]⟩ (sampleWorld [])).2.calls
        = (sampleWorld []).calls ++ [Call.StoreFile f] ∧
      f.ID = "custom" ∧ f.Control.ID = "custom" ∧ f.Header = ⟨"custom", ["x"]⟩ ∧
      f.Header.ID = "custom" ∧
      ((sampleService.store.StoreFile f (sampleWorld []).store).1 = none →
        (CreateFile (sampleEngine none) sampleService ⟨"custom", ["x"]⟩ (sampleWorld [])).1
          = ("custom", none)) :=
  CreateFile_supplied_id (sampleEngine none) sampleService ⟨"custom", ["x"]⟩ (sampleWorld [])
    (by decide)

/-! ## Creation of batches -/

theorem NewBatch_ok {ω : Type} (E : FormatEngine ω) (bh : Ptr) (heap : Heap) (b0 : Batch)
    (hb : NewBatch E bh heap = Except.ok b0) :
    b0 = { ID := "", Header := bh, Control := E.NewBatchControl } := by
  unfold NewBatch at hb
  split at hb
  · cases hb
  · cases hb
    rfl

/-- C3: for a batch header with an empty ID whose construction succeeds,
`CreateBatch` hands to `StoreBatch`, under `fileID`, one Batch whose ID,
Header.ID and Control.ID all equal the identifier `x` that `NextID`
generates, and when that `StoreBatch` succeeds it returns `x`, which is not
the empty string, with no error. -/
theorem CreateBatch_generated_id {σ ω : Type} (E : FormatEngine ω) (s : service σ)
    (fileID : String) (bh : Ptr) (w : World σ) (b0 : Batch)
    (h : (w.heap bh).ID = "") (hb : NewBatch E bh w.heap = Except.ok b0) :
    ∃ (b : Batch) (hdr : BatchHeader),
      (CreateBatch E s fileID bh w).2.calls = w.calls ++ [Call.StoreBatch fileID b hdr] ∧
      hdr = (CreateBatch E s fileID bh w).2.heap b.GetHeader ∧
      b.ID = (NextID w).1 ∧ hdr.ID = (NextID w).1 ∧ b.Control.ID = (NextID w).1 ∧
      ((s.store.StoreBatch fileID b (CreateBatch E s fileID bh w).2.heap w.store).1 = none →
        (CreateBatch E s fileID bh w).1 = ((NextID w).1, none) ∧ (NextID w).1 ≠ "") := by
  have hb0 := NewBatch_ok E bh w.heap b0 hb
  subst hb0
  refine ⟨{ ID := (NextID w).1, Header := bh,
            Control := { E.NewBatchControl with ID := (NextID w).1 } },
          { w.heap bh with ID := (NextID w).1 }, ?_, ?_, rfl, rfl, rfl, ?_⟩
  · simp only [CreateBatch, hb, h, if_true]
    split <;>
      simp [service.doStoreBatch, Batch.SetID, Batch.GetHeader, NextID, World.readRand]
  · simp only [CreateBatch, hb, h, if_true]
    split <;>
      simp [service.doStoreBatch, Batch.SetID, Batch.GetHeader, NextID, World.readRand]
  · intro hs
    refine ⟨?_, NextID_ne_empty w⟩
    simp only [CreateBatch, hb, h, if_true] at hs ⊢
    split
    · rename_i err herr
      exfalso
      split at hs <;>
        simp_all [service.doStoreBatch, Batch.SetID, Batch.GetHeader, NextID, World.readRand]
    · simp [service.doStoreBatch, Batch.SetID, Batch.GetHeader, NextID, World.readRand]

/-- Witness of C3 on the sample service: the header at address 0 has an empty
ID and the class PPD, and the file "f1" is in the repository. -/
theorem CreateBatch_generated_id_witness :
    ∃ (b : Batch) (hdr : BatchHeader),
      (CreateBatch (sampleEngine none) sampleService "f1" 0 (sampleWorld [sampleFile])).2.calls
        = (sampleWorld [sampleFile]).calls ++ [Call.StoreBatch "f1" b hdr] ∧
      hdr = (CreateBatch (sampleEngine none) sampleService "f1" 0
              (sampleWorld [sampleFile])).2.heap b.GetHeader ∧
      b.ID = (NextID (sampleWorld [sampleFile])).1 ∧
      hdr.ID = (NextID (sampleWorld [sampleFile])).1 ∧
      b.Control.ID = (NextID (sampleWorld [sampleFile])).1 ∧
      ((sampleService.store.StoreBatch "f1" b
          (CreateBatch (sampleEngine none) sampleService "f1" 0 (sampleWorld [sampleFile])).2.heap
          (sampleWorld [sampleFile]).store).1 = none →
        (CreateBatch (sampleEngine none) sampleService "f1" 0 (sampleWorld [sampleFile])).1
            = ((NextID (sampleWorld [sampleFile])).1, none) ∧
          (NextID (sampleWorld [sampleFile])).1 ≠ "") :=
  CreateBatch_generated_id (sampleEngine none) sampleService "f1" 0 (sampleWorld [sampleFile])
    { ID := "", Header := 0, Control := ⟨"", []⟩ } rfl rfl

/-- C4: for a batch header with a non-empty ID `c` whose construction
succeeds, `CreateBatch` hands to `StoreBatch`, under `fileID`, one Batch whose
ID and Control.ID equal `c` and whose header is the header the caller
supplied, unchanged (so Header.ID is `c` too), and when that `StoreBatch`
succeeds it returns `c` with no error. -/
theorem CreateBatch_supplied_id {σ ω : Type} (E : FormatEngine ω) (s : service σ)
    (fileID : String) (bh : Ptr) (w : World σ) (b0 : Batch)
    (h : (w.heap bh).ID ≠ "") (hb : NewBatch E bh w.heap = Except.ok b0) :
    ∃ (b : Batch) (hdr : BatchHeader),
      (CreateBatch E s fileID bh w).2.calls = w.calls ++ [Call.StoreBatch fileID b hdr] ∧
      hdr = (CreateBatch E s fileID bh w).2.heap b.GetHeader ∧
      (CreateBatch E s fileID bh w).2.heap = w.heap ∧
      b.ID = (w.heap bh).ID ∧ b.Control.ID = (w.heap bh).ID ∧
      hdr = w.heap bh ∧ hdr.ID = (w.heap bh).ID ∧
      ((s.store.StoreBatch fileID b w.heap w.store).1 = none →
        (CreateBatch E s fileID bh w).1 = ((w.heap bh).ID, none)) := by
  have hb0 := NewBatch_ok E bh w.heap b0 hb
  subst hb0
  refine ⟨{ ID := (w.heap bh).ID, Header := bh,
            Control := { E.NewBatchControl with ID := (w.heap bh).ID } },
          w.heap bh, ?_, ?_, ?_, rfl, rfl, rfl, rfl, ?_⟩
  · simp only [CreateBatch, hb, h, if_false]
    split <;> simp [service.doStoreBatch, Batch.SetID]
  · simp only [CreateBatch, hb, h, if_false]
    split <;> simp [service.doStoreBatch, Batch.GetHeader]
  · simp only [CreateBatch, hb, h, if_false]
    split <;> simp [service.doStoreBatch]
  · intro hs
    simp only [CreateBatch, hb, h, if_false]
    split
    · rename_i err herr
      simp only [service.doStoreBatch, Batch.SetID] at herr hs
      rw [hs] at herr
      cases herr
    · simp [service.doStoreBatch]

/-- Witness of C4 on the sample service: the header at address 1 has the ID
"custom" and the class PPD. -/
theorem CreateBatch_supplied_id_witness :
    ∃ (b : Batch) (hdr : BatchHeader),
      (CreateBatch (sampleEngine none) sampleService "f1" 1 (sampleWorld [sampleFile])).2.calls
        = (sampleWorld [sampleFile]).calls ++ [Call.StoreBatch "f1" b hdr] ∧
      hdr = (CreateBatch (sampleEngine none) sampleService "f1" 1
              (sampleWorld [sampleFile])).2.heap b.GetHeader ∧
      (CreateBatch (sampleEngine none) sampleService "f1" 1 (sampleWorld [sampleFile])).2.heap
        = (sampleWorld [sampleFile]).heap ∧
      b.ID = ((sampleWorld [sampleFile]).heap 1).ID ∧
      b.Control.ID = ((sampleWorld [sampleFile]).heap 1).ID ∧
      hdr = (sampleWorld [sampleFile]).heap 1 ∧
      hdr.ID = ((sampleWorld [sampleFile]).heap 1).ID ∧
      ((sampleService.store.StoreBatch "f1" b (sampleWorld [sampleFile]).heap
          (sampleWorld [sampleFile]).store).1 = none →
        (CreateBatch (sampleEngine none) sampleService "f1" 1 (sampleWorld [sampleFile])).1
          = (((sampleWorld [sampleFile]).heap 1).ID, none)) :=
  CreateBatch_supplied_id (sampleEngine none) sampleService "f1" 1 (sampleWorld [sampleFile])
    { ID := "", Header := 1, Control := ⟨"", []⟩ } (by decide) rfl

/-- C10: when the construction of the batch fails with `e`, `CreateBatch`
returns `e` together with the ID of the caller's header as it stands, and
leaves the world as it was: no identifier is drawn from the random source,
no `Repository` method is called, the repository and the header are
unchanged. -/
theorem CreateBatch_construction_error {σ ω : Type} (E : FormatEngine ω) (s : service σ)
    (fileID : String) (bh : Ptr) (w : World σ) (e : GoError)
    (he : NewBatch E bh w.heap = Except.error e) :
    CreateBatch E s fileID bh w = (((w.heap bh).ID, some e), w) := by
  simp only [CreateBatch, he]

/-- Witness of C10 on the sample service: the header at address 2 has the ID
"b9" and a class that the engine does not support. -/
theorem CreateBatch_construction_error_witness :
    CreateBatch (sampleEngine none) sampleService "f1" 2 (sampleWorld [sampleFile])
      = (((((sampleWorld [sampleFile]).heap 2).ID),
          some (GoError.foreign 1 "StandardEntryClassCode is not supported")),
         sampleWorld [sampleFile]) :=
  CreateBatch_construction_error (sampleEngine none) sampleService "f1" 2
    (sampleWorld [sampleFile]) (GoError.foreign 1 "StandardEntryClassCode is not supported") rfl

theorem memRepository_StoreBatch_unknown (fileID : String) (b : Batch) (hp : Heap)
    (st : List File) (hu : ¬ memKnown st fileID) :
    (memRepository.StoreBatch fileID b hp st).1 = some GoError.ErrNotFound := by
  unfold memKnown at hu
  simp [memRepository, hu]

/-- C8: when the construction of the batch succeeds, `CreateBatch` hands one
Batch to `StoreBatch` under `fileID`; if that call fails with `e`, then
`CreateBatch` returns the empty identifier and exactly `e`.  Hence, when the
Repository answers `StoreBatch` for an unknown `fileID` with an error of the
not-found class, `CreateBatch` for an unknown `fileID` fails with an error of
that class. -/
theorem CreateBatch_store_error {σ ω : Type} (E : FormatEngine ω) (s : service σ)
    (fileID : String) (bh : Ptr) (w : World σ) (b0 : Batch)
    (hb : NewBatch E bh w.heap = Except.ok b0) :
    ∃ (b : Batch) (hdr : BatchHeader),
      (CreateBatch E s fileID bh w).2.calls = w.calls ++ [Call.StoreBatch fileID b hdr] ∧
      (∀ e : GoError,
        (s.store.StoreBatch fileID b (CreateBatch E s fileID bh w).2.heap w.store).1 = some e →
        (CreateBatch E s fileID bh w).1 = ("", some e)) ∧
      (∀ (known : σ → String → Prop) (notFoundClass : GoError → Prop),
        (∀ (c : Batch) (hp : Heap) (st : σ), ¬ known st fileID →
          ∃ e, (s.store.StoreBatch fileID c hp st).1 = some e ∧ notFoundClass e) →
        ¬ known w.store fileID →
        ∃ e, (CreateBatch E s fileID bh w).1 = ("", some e) ∧ notFoundClass e) := by
  have hb0 := NewBatch_ok E bh w.heap b0 hb
  subst hb0
  by_cases h : (w.heap bh).ID = ""
  · have key : ∀ e : GoError,
        (s.store.StoreBatch fileID
            { ID := (NextID w).1, Header := bh,
              Control := { E.NewBatchControl with ID := (NextID w).1 } }
            (CreateBatch E s fileID bh w).2.heap w.store).1 = some e →
        (CreateBatch E s fileID bh w).1 = ("", some e) := by
      intro e hs
      simp only [CreateBatch, hb, h, if_true] at hs ⊢
      split
      · rename_i err herr
        split at hs <;>
          simp_all [service.doStoreBatch, Batch.SetID, Batch.GetHeader, NextID, World.readRand]
      · rename_i herr
        exfalso
        split at hs <;>
          simp_all [service.doStoreBatch, Batch.SetID, Batch.GetHeader, NextID, World.readRand]
    refine ⟨{ ID := (NextID w).1, Header := bh,
              Control := { E.NewBatchControl with ID := (NextID w).1 } },
            { w.heap bh with ID := (NextID w).1 }, ?_, key, ?_⟩
    · simp only [CreateBatch, hb, h, if_true]
      split <;>
        simp [service.doStoreBatch, Batch.SetID, Batch.GetHeader, NextID, World.readRand]
    · intro known notFoundClass hcontract hunknown
      obtain ⟨e, he, hnf⟩ := hcontract _ (CreateBatch E s fileID bh w).2.heap w.store hunknown
      exact ⟨e, key e he, hnf⟩
  · have key : ∀ e : GoError,
        (s.store.StoreBatch fileID
            { ID := (w.heap bh).ID, Header := bh,
              Control := { E.NewBatchControl with ID := (w.heap bh).ID } }
            (CreateBatch E s fileID bh w).2.heap w.store).1 = some e →
        (CreateBatch E s fileID bh w).1 = ("", some e) := by
      intro e hs
      simp only [CreateBatch, hb, h, if_false] at hs ⊢
      split
      · rename_i err herr
        split at hs <;> simp_all [service.doStoreBatch, Batch.SetID]
      · rename_i herr
        exfalso
        split at hs <;> simp_all [service.doStoreBatch, Batch.SetID]
    refine ⟨{ ID := (w.heap bh).ID, Header := bh,
              Control := { E.NewBatchControl with ID := (w.heap bh).ID } },
            w.heap bh, ?_, key, ?_⟩
    · simp only [CreateBatch, hb, h, if_false]
      split <;> simp [service.doStoreBatch, Batch.SetID]
    · intro known notFoundClass hcontract hunknown
      obtain ⟨e, he, hnf⟩ := hcontract _ (CreateBatch E s fileID bh w).2.heap w.store hunknown
      exact ⟨e, key e he, hnf⟩

/-- Witness of C8 on the sample service: the file "nofile" is not in the
repository, whose `StoreBatch` then answers `ErrNotFound`, and so does
`CreateBatch`. -/
theorem CreateBatch_store_error_witness :
    NewBatch (sampleEngine none) 0 (sampleWorld [sampleFile]).heap
        = Except.ok { ID := "", Header := 0, Control := ⟨"", []⟩ } ∧
      ¬ memKnown (sampleWorld [sampleFile]).store "nofile" ∧
      ∃ e, (CreateBatch (sampleEngine none) sampleService "nofile" 0
              (sampleWorld [sampleFile])).1 = ("", some e) ∧ e = GoError.ErrNotFound := by
  have hunknown : ¬ memKnown (sampleWorld [sampleFile]).store "nofile" := by
    simp [memKnown, sampleWorld, sampleFile]
  refine ⟨rfl, hunknown, ?_⟩
  obtain ⟨_, _, _, _, hclass⟩ :=
    CreateBatch_store_error (sampleEngine none) sampleService "nofile" 0
      (sampleWorld [sampleFile]) { ID := "", Header := 0, Control := ⟨"", []⟩ } rfl
  exact hclass memKnown (fun e => e = GoError.ErrNotFound)
    (fun c hp st hu => ⟨GoError.ErrNotFound,
      memRepository_StoreBatch_unknown "nofile" c hp st hu, rfl⟩)
    hunknown

/-! ## Reading and deleting -/

/-- C5: `GetFile` fails with exactly `ErrNotFound` and no File whenever
`FindFile` returns an error, whatever the error, and otherwise returns the
File that `FindFile` returned with no error; `GetBatch` does the same with
`FindBatch`.  Neither returns any other error. -/
theorem GetFile_GetBatch_not_found {σ : Type} (s : service σ) (id fileID batchID : String)
    (w : World σ) :
    ((∀ e : GoError, (s.store.FindFile id w.store).1.2 = some e →
        (GetFile s id w).1 = (none, some GoError.ErrNotFound)) ∧
      ((s.store.FindFile id w.store).1.2 = none →
        (GetFile s id w).1 = ((s.store.FindFile id w.store).1.1, none)) ∧
      ((GetFile s id w).1.2 = none ∨ (GetFile s id w).1.2 = some GoError.ErrNotFound)) ∧
    ((∀ e : GoError, (s.store.FindBatch fileID batchID w.store).1.2 = some e →
        (GetBatch s fileID batchID w).1 = (none, some GoError.ErrNotFound)) ∧
      ((s.store.FindBatch fileID batchID w.store).1.2 = none →
        (GetBatch s fileID batchID w).1 = ((s.store.FindBatch fileID batchID w.store).1.1, none)) ∧
      ((GetBatch s fileID batchID w).1.2 = none ∨
        (GetBatch s fileID batchID w).1.2 = some GoError.ErrNotFound)) := by
  refine ⟨⟨?_, ?_, ?_⟩, ⟨?_, ?_, ?_⟩⟩
  · intro e he
    simp [GetFile, service.doFindFile, he]
  · intro he
    simp [GetFile, service.doFindFile, he]
  · cases he : (s.store.FindFile id w.store).1.2 <;> simp [GetFile, service.doFindFile, he]
  · intro e he
    simp [GetBatch, service.doFindBatch, he]
  · intro he
    simp [GetBatch, service.doFindBatch, he]
  · cases he : (s.store.FindBatch fileID batchID w.store).1.2 <;>
      simp [GetBatch, service.doFindBatch, he]

/-- Witness of C5: over a repository whose lookups fail with a backend error,
`GetFile` and `GetBatch` answer `ErrNotFound`; over the repository in memory,
`GetFile` returns the stored file. -/
theorem GetFile_GetBatch_not_found_witness :
    (GetFile (NewService brokenRepository) "f1" (sampleWorld [sampleFile])).1
        = (none, some GoError.ErrNotFound) ∧
      (GetBatch (NewService brokenRepository) "f1" "b1" (sampleWorld [sampleFile])).1
        = (none, some GoError.ErrNotFound) ∧
      (GetFile sampleService "f1" (sampleWorld [sampleFile])).1 = (some sampleFile, none) :=
  ⟨(GetFile_GetBatch_not_found (NewService brokenRepository) "f1" "f1" "b1"
      (sampleWorld [sampleFile])).1.1 (GoError.foreign 9 "connection refused") rfl,
   (GetFile_GetBatch_not_found (NewService brokenRepository) "f1" "f1" "b1"
      (sampleWorld [sampleFile])).2.1 (GoError.foreign 9 "connection refused") rfl,
   (GetFile_GetBatch_not_found sampleService "f1" "f1" "b1"
      (sampleWorld [sampleFile])).1.2.1 (by decide)⟩

/-- C6: `DeleteFile` returns exactly the result of `Repository.DeleteFile` and
`DeleteBatch` exactly the result of `Repository.DeleteBatch`, error or
success, and each makes that one call on the repository. -/
theorem Delete_verbatim {σ : Type} (s : service σ) (id fileID batchID : String)
    (w : World σ) :
    ((DeleteFile s id w).1 = (s.store.DeleteFile id w.store).1 ∧
      (DeleteFile s id w).2.store = (s.store.DeleteFile id w.store).2 ∧
      (DeleteFile s id w).2.calls = w.calls ++ [Call.DeleteFile id]) ∧
    ((DeleteBatch s fileID batchID w).1 = (s.store.DeleteBatch fileID batchID w.store).1 ∧
      (DeleteBatch s fileID batchID w).2.store
        = (s.store.DeleteBatch fileID batchID w.store).2 ∧
      (DeleteBatch s fileID batchID w).2.calls
        = w.calls ++ [Call.DeleteBatch fileID batchID]) :=
  ⟨⟨rfl, rfl, rfl⟩, ⟨rfl, rfl, rfl⟩⟩

/-! ## The identifier generator -/

theorem readRand_surjective (bs : List Nat) (n : Nat) (hlen : bs.length = n)
    (hbytes : ∀ b ∈ bs, b < 256) :
    ∃ w : World Unit, (w.readRand n).1 = bs := by
  refine ⟨{ store := (), heap := fun _ => ⟨"", "", []⟩, entropy := fun i => bs.getD i 0,
            cursor := 0, calls := [] }, ?_⟩
  apply List.ext_getElem
  · simp [World.readRand, hlen]
  · intro i h1 h2
    simp only [World.readRand, List.getElem_map, List.getElem_range, Nat.zero_add]
    rw [List.getD_eq_getElem _ _ h2]
    exact Nat.mod_eq_of_lt (hbytes _ (List.getElem_mem h2))

/-- C9: for every block `bs` of 20 bytes, which `rand.Reader` can deliver,
`NextID` on that block returns the first 16 characters of the hexadecimal
encoding of the 20-byte SHA-1 digest of `bs`, that is, the encoding of the
first 8 bytes of the digest: a token of length 16 made of the characters 0-9
and a-f only. -/
theorem NextID_token (bs : List Nat) (hlen : bs.length = 20) (hbytes : ∀ b ∈ bs, b < 256) :
    (∃ w : World Unit, (w.readRand 20).1 = bs) ∧
    (∀ (σ : Type) (w : World σ), (w.readRand 20).1 = bs →
      (NextID w).1 = String.mk ((hexEncodeToString (sha1Sum bs)).take 16) ∧
      (NextID w).2 = { w with cursor := w.cursor + 20 }) ∧
    (sha1Sum bs).length = 20 ∧
    (hexEncodeToString (sha1Sum bs)).length = 40 ∧
    (hexEncodeToString (sha1Sum bs)).take 16 = hexEncodeToString ((sha1Sum bs).take 8) ∧
    (String.mk ((hexEncodeToString (sha1Sum bs)).take 16)).length = 16 ∧
    (∀ c ∈ (String.mk ((hexEncodeToString (sha1Sum bs)).take 16)).data, isLowerHex c) := by
  refine ⟨readRand_surjective bs 20 hlen hbytes, ?_, sha1Sum_length bs, ?_, ?_, ?_, ?_⟩
  · intro σ w hw
    refine ⟨?_, rfl⟩
    simp only [NextID, NextID.ofBlock, hw]
  · rw [hexEncodeToString_length, sha1Sum_length]
  · exact hexEncodeToString_take (sha1Sum bs) 8
  · exact ofBlock_length bs
  · intro c hc
    apply hextable_lowerHex
    exact hexEncodeToString_mem (sha1Sum bs) (sha1Sum_lt bs) c (List.mem_of_mem_take hc)

/-- Witness of C9: the block that the sample world delivers. -/
theorem NextID_token_witness :
    (∃ w : World Unit,
      (w.readRand 20).1 = [3, 10, 17, 24, 31, 38, 45, 52, 59, 66, 73, 80, 87, 94, 101, 108,
        115, 122, 129, 136]) ∧
    (∀ (σ : Type) (w : World σ),
      (w.readRand 20).1 = [3, 10, 17, 24, 31, 38, 45, 52, 59, 66, 73, 80, 87, 94, 101, 108,
        115, 122, 129, 136] →
      (NextID w).1 = String.mk ((hexEncodeToString (sha1Sum [3, 10, 17, 24, 31, 38, 45, 52, 59,
        66, 73, 80, 87, 94, 101, 108, 115, 122, 129, 136])).take 16) ∧
      (NextID w).2 = { w with cursor := w.cursor + 20 }) ∧
    (sha1Sum [3, 10, 17, 24, 31, 38, 45, 52, 59, 66, 73, 80, 87, 94, 101, 108, 115, 122, 129,
      136]).length = 20 ∧
    (hexEncodeToString (sha1Sum [3, 10, 17, 24, 31, 38, 45, 52, 59, 66, 73, 80, 87, 94, 101,
      108, 115, 122, 129, 136])).length = 40 ∧
    (hexEncodeToString (sha1Sum [3, 10, 17, 24, 31, 38, 45, 52, 59, 66, 73, 80, 87, 94, 101,
      108, 115, 122, 129, 136])).take 16
      = hexEncodeToString ((sha1Sum [3, 10, 17, 24, 31, 38, 45, 52, 59, 66, 73, 80, 87, 94,
          101, 108, 115, 122, 129, 136]).take 8) ∧
    (String.mk ((hexEncodeToString (sha1Sum [3, 10, 17, 24, 31, 38, 45, 52, 59, 66, 73, 80, 87,
      94, 101, 108, 115, 122, 129, 136])).take 16)).length = 16 ∧
    (∀ c ∈ (String.mk ((hexEncodeToString (sha1Sum [3, 10, 17, 24, 31, 38, 45, 52, 59, 66, 73,
      80, 87, 94, 101, 108, 115, 122, 129, 136])).take 16)).data, isLowerHex c) :=
  NextID_token [3, 10, 17, 24, 31, 38, 45, 52, 59, 66, 73, 80, 87, 94, 101, 108, 115, 122, 129,
    136] rfl (by decide)

/-! ## Rendering -/

/-- The message `pre ++ id ++ ": " ++ cause` contains `pre` and `id` and ends
with `cause`. -/
theorem context_message (pre id cause : String) :
    List.IsInfix pre.data (pre ++ id ++ ": " ++ cause).data ∧
    List.IsInfix id.data (pre ++ id ++ ": " ++ cause).data ∧
    List.IsSuffix cause.data (pre ++ id ++ ": " ++ cause).data := by
  refine ⟨⟨[], (id ++ ": " ++ cause).data, ?_⟩, ⟨pre.data, (": " ++ cause).data, ?_⟩,
    ⟨(pre ++ id ++ ": ").data, ?_⟩⟩ <;>
    simp [String.data_append]

/-- A `bufio.Writer` without a sticky error flushes without error, and then
the `bytes.Buffer` holds what it held before followed by the pending bytes. -/
theorem BufWriter.Flush_ok (b : BufWriter) (h : b.err = none) :
    b.Flush.1 = none ∧ b.Flush.2.err = none ∧ b.Flush.2.buf = b.buf ++ b.pending := by
  unfold BufWriter.Flush
  rw [h]
  by_cases hp : b.pending.length = 0
  · have hnil : b.pending = [] := List.length_eq_zero.mp hp
    simp [hp, h, hnil]
  · simp [hp, bytesBufferWrite]

theorem BufWriter.WriteString_ok (b : BufWriter) (p : List Nat) (h : b.err = none) :
    (b.WriteString p).err = none ∧ (b.WriteString p).buf = b.buf ∧
      (b.WriteString p).pending = b.pending ++ p := by
  simp [BufWriter.WriteString, h]

/-- After a `Write` on a new `Writer`, `Flush` returns no error, and the
buffer then holds the text that the engine rendered. -/
theorem Writer.Flush_after_Write {ω : Type} (E : FormatEngine ω) (f : File) :
    (Writer.Write E (NewWriter E) f).2.Flush.1 = none ∧
    (Writer.Write E (NewWriter E) f).2.Flush.2.w.buf = (E.Write E.NewWriter f).1.2 := by
  have hw := BufWriter.WriteString_ok (NewWriter E).w (E.Write E.NewWriter f).1.2 rfl
  have hf := BufWriter.Flush_ok ((NewWriter E).w.WriteString (E.Write E.NewWriter f).1.2) hw.1
  refine ⟨hf.1, ?_⟩
  have h3 := hf.2.2
  rw [hw.2.1, hw.2.2] at h3
  simpa [NewWriter] using h3

/-- `GetFileContents` panics exactly when `GetFile` returns a nil File with a
nil error; otherwise it returns. -/
theorem GetFileContents_returns {σ ω : Type} (E : FormatEngine ω) (s : service σ)
    (id : String) (w : World σ) :
    GetFileContents E s id w = none ↔ (GetFile s id w).1 = (none, none) := by
  have hfl : ∀ f, (Writer.Write E (NewWriter E) f).2.Flush.1 = none :=
    fun f => (Writer.Flush_after_Write E f).1
  unfold GetFileContents
  rcases h2 : (GetFile s id w).1.2 with _ | e
  · rcases h1 : (GetFile s id w).1.1 with _ | f
    · simp [Prod.ext_iff, h1, h2]
    · simp only [Prod.ext_iff, h1, h2]
      rcases hc : (E.Create f).1 with _ | e
      · rcases hwr : (Writer.Write E (NewWriter E) (E.Create f).2).1 with _ | e
        · simp [hfl]
        · simp
      · simp
  · simp [Prod.ext_iff, h2]

/-- C7: a failure of `GetFileContents` at the stage of reading the file, of
`Create` or of `Write` is returned as an error whose message names the stage
and the file id and ends with the message of the cause, with no reader.
`Flush` on the writer over the buffer in memory returns no error, so no
failure arises at that stage.  Hence every error that `GetFileContents`
returns has that form and comes with no reader. -/
theorem GetFileContents_error_context {σ ω : Type} (E : FormatEngine ω) (s : service σ)
    (id : String) (w : World σ) :
    (∀ e, (GetFile s id w).1.2 = some e →
      GetFileContents E s id w
        = some ((none, some (GoError.Errorf ("problem reading file " ++ id ++ ": " ++ e.Error))),
                (GetFile s id w).2)) ∧
    (∀ f e, (GetFile s id w).1 = (some f, none) → (E.Create f).1 = some e →
      Option.map Prod.fst (GetFileContents E s id w)
        = some (none, some (GoError.Errorf
            ("problem creating file " ++ id ++ ": " ++ e.Error)))) ∧
    (∀ f e, (GetFile s id w).1 = (some f, none) → (E.Create f).1 = none →
      (Writer.Write E (NewWriter E) (E.Create f).2).1 = some e →
      Option.map Prod.fst (GetFileContents E s id w)
        = some (none, some (GoError.Errorf
            ("problem writing plaintext file " ++ id ++ ": " ++ e.Error)))) ∧
    (∀ f, (Writer.Write E (NewWriter E) f).2.Flush.1 = none) ∧
    (∀ r, GetFileContents E s id w = some r → ∀ err, r.1.2 = some err →
      r.1.1 = none ∧
      ∃ (stage : String) (cause : GoError),
        (stage = "problem reading file " ∨ stage = "problem creating file " ∨
          stage = "problem writing plaintext file ") ∧
        err = GoError.Errorf (stage ++ id ++ ": " ++ cause.Error) ∧
        List.IsInfix stage.data err.Error.data ∧
        List.IsInfix id.data err.Error.data ∧
        List.IsSuffix cause.Error.data err.Error.data) := by
  have hfl : ∀ f, (Writer.Write E (NewWriter E) f).2.Flush.1 = none :=
    fun f => (Writer.Flush_after_Write E f).1
  refine ⟨?_, ?_, ?_, hfl, ?_⟩
  · intro e h2
    simp [GetFileContents, h2]
  · intro f e h hc
    have h1 : (GetFile s id w).1.1 = some f := by rw [h]
    have h2 : (GetFile s id w).1.2 = none := by rw [h]
    simp [GetFileContents, h1, h2, hc]
  · intro f e h hc hwr
    have h1 : (GetFile s id w).1.1 = some f := by rw [h]
    have h2 : (GetFile s id w).1.2 = none := by rw [h]
    simp [GetFileContents, h1, h2, hc, hwr]
  · intro r hr err herr
    have wrap : ∀ (stage : String) (cause : GoError) (w1 : World σ),
        (stage = "problem reading file " ∨ stage = "problem creating file " ∨
          stage = "problem writing plaintext file ") →
        r = ((none, some (GoError.Errorf (stage ++ id ++ ": " ++ cause.Error))), w1) →
        r.1.1 = none ∧
        ∃ (stage : String) (cause : GoError),
          (stage = "problem reading file " ∨ stage = "problem creating file " ∨
            stage = "problem writing plaintext file ") ∧
          err = GoError.Errorf (stage ++ id ++ ": " ++ cause.Error) ∧
          List.IsInfix stage.data err.Error.data ∧
          List.IsInfix id.data err.Error.data ∧
          List.IsSuffix cause.Error.data err.Error.data := by
      intro stage cause w1 hstage hreq
      subst hreq
      simp only [Option.some.injEq] at herr
      subst herr
      have hm := context_message stage id cause.Error
      exact ⟨rfl, stage, cause, hstage, rfl, hm.1, hm.2.1, hm.2.2⟩
    unfold GetFileContents at hr
    rcases h2 : (GetFile s id w).1.2 with _ | e
    · rcases h1 : (GetFile s id w).1.1 with _ | f
      · simp [h1, h2] at hr
      · simp only [h1, h2] at hr
        rcases hc : (E.Create f).1 with _ | e
        · rcases hwr : (Writer.Write E (NewWriter E) (E.Create f).2).1 with _ | e
          · simp only [hc, hwr, hfl, Option.some.injEq] at hr
            subst hr
            simp at herr
          · simp only [hc, hwr, Option.some.injEq] at hr
            exact wrap _ e _ (Or.inr (Or.inr rfl)) hr.symm
        · simp only [hc, Option.some.injEq] at hr
          exact wrap _ e _ (Or.inr (Or.inl rfl)) hr.symm
    · simp only [h2, Option.some.injEq] at hr
      exact wrap _ e _ (Or.inl rfl) hr.symm

/-- Witness of C7 on the sample service: the file "f2" is not stored; the
file "f0" is stored without batches, so `Create` fails; the file "f1" is
stored with one batch and `Write` fails with "invalid record". -/
theorem GetFileContents_error_context_witness :
    GetFileContents (sampleEngine none) sampleService "f2" (sampleWorld [sampleFile])
      = some ((none, some (GoError.Errorf
                ("problem reading file " ++ "f2" ++ ": " ++ GoError.ErrNotFound.Error))),
              (GetFile sampleService "f2" (sampleWorld [sampleFile])).2) ∧
    Option.map Prod.fst
        (GetFileContents (sampleEngine none) sampleService "f0" (sampleWorld [emptyFile]))
      = some (none, some (GoError.Errorf
          ("problem creating file " ++ "f0" ++ ": "
            ++ (GoError.foreign 2 "must have batches to be built").Error))) ∧
    Option.map Prod.fst
        (GetFileContents (sampleEngine (some (GoError.foreign 5 "invalid record")))
          sampleService "f1" (sampleWorld [sampleFile]))
      = some (none, some (GoError.Errorf
          ("problem writing plaintext file " ++ "f1" ++ ": "
            ++ (GoError.foreign 5 "invalid record").Error))) :=
  ⟨(GetFileContents_error_context (sampleEngine none) sampleService "f2"
      (sampleWorld [sampleFile])).1 GoError.ErrNotFound (by decide),
   (GetFileContents_error_context (sampleEngine none) sampleService "f0"
      (sampleWorld [emptyFile])).2.1 emptyFile (GoError.foreign 2 "must have batches to be built")
      (by decide) (by decide),
   (GetFileContents_error_context (sampleEngine (some (GoError.foreign 5 "invalid record")))
      sampleService "f1" (sampleWorld [sampleFile])).2.2.1 sampleFile
      (GoError.foreign 5 "invalid record") (by decide) (by decide) (by decide)⟩

/-- On the sample service, `GetFileContents("f1")` returns the rendered bytes
and no error, and the file held by the repository is the file as `Create`
left it. -/
theorem GetFileContents_sample :
    Option.map (fun r => (r.1, r.2.store))
        (GetFileContents (sampleEngine none) sampleService "f1" (sampleWorld [sampleFile]))
      = some ((some [102, 49], none),
          [{ sampleFile with Control := { sampleFile.Control with fields := ["built"] } }]) := by
  decide

/-- On a repository that answers `FindFile` with a nil File and a nil error,
`GetFileContents` panics. -/
theorem GetFileContents_nil_file :
    (GetFileContents (sampleEngine none) (NewService nilRepository) "f1"
      (sampleWorld [sampleFile])).isNone = true := by
  decide

/-! ## Test vectors -/

set_option maxRecDepth 100000

/-- The digest of "abc", from FIPS 180. -/
theorem sha1Sum_abc :
    sha1Sum [0x61, 0x62, 0x63]
      = [0xa9, 0x99, 0x3e, 0x36, 0x47, 0x06, 0x81, 0x6a, 0xba, 0x3e,
         0x25, 0x71, 0x78, 0x50, 0xc2, 0x6c, 0x9c, 0xd0, 0xd8, 0x9d] := by
  decide

/-- The digest of the empty message, encoded. -/
theorem sha1Sum_nil_hex :
    String.mk (hexEncodeToString (sha1Sum [])) = "da39a3ee5e6b4b0d3255bfef95601890afd80709" := by
  decide

/-- The identifier that `NextID` returns in the sample world. -/
theorem NextID_sample : (NextID (sampleWorld [])).1 = "57ab1094cc2a57d9" := by
  decide

end Server
